import Mathlib

/-!
Verification of the talos-gitops-ops policy-enforcement hooks.

The development shallowly embeds the TypeScript sources:
  * the Bash-command classification hook (loop detection, kubectl / helm
    install / helm template / argocd diff / argocd sync / git push branches),
  * the YAML-edit validation hook (application.yaml and values.yaml checks),
  * the url-checker library (chart-repo and chart-version validation),
  * the helm-validator library (tolerations scan, common-mistakes line scan),
  * the cluster-context library (repo-root discovery and the 30 s context
    cache).

Effectful primitives are modelled as explicit parameters: the network is a
function from URL to probe result, the filesystem is a function from path to
optional content, wall-clock time is a natural number of milliseconds, and
the module-level mutable cache / session-state file are threaded as explicit
state values.  JavaScript regular expressions used by the sources are
translated into executable character-list matchers with the same semantics
on the ASCII inputs the hooks deal in (the JS `\s` class additionally
matches some non-ASCII whitespace, which no theorem below touches).
-/

namespace TalosOps

/-! ### Character classes and low-level string matching -/

/-- ASCII whitespace, the effective content of the JS `\s` class here. -/
def isSpc (c : Char) : Bool :=
  c == ' ' || c == '\t' || c == '\n' || c == '\r' || c == '\x0b' || c == '\x0c'

/-- The JS `\w` class: ASCII letters, digits and underscore. -/
def wordChar (c : Char) : Bool := c.isAlphanum || c == '_'

/-- Strip a literal from the front of a list, returning the rest. -/
def splitLit : List Char → List Char → Option (List Char)
  | [], s => some s
  | _ :: _, [] => none
  | p :: ps, c :: cs => if p == c then splitLit ps cs else none

/-- Does `s` start with the literal `p`? -/
def startsWithL (p s : List Char) : Bool := (splitLit p s).isSome

/-- String version of `startsWithL`. -/
def strStarts (p s : String) : Bool := startsWithL p.data s.data

/-- Consume `\s+`: one or more whitespace characters (greedy). -/
def stripSpaces1 : List Char → Option (List Char)
  | [] => none
  | c :: cs => if isSpc c then some (cs.dropWhile isSpc) else none

/-- A word boundary sits after a word character here iff the rest is empty
or starts with a non-word character. -/
def boundaryAfter : List Char → Bool
  | [] => true
  | c :: _ => !wordChar c

/-- Capture `(\S+)`: a non-empty maximal run of non-space characters. -/
def takeTok (l : List Char) : Option String :=
  match l.takeWhile (fun c => !isSpc c) with
  | [] => none
  | t => some (String.mk t)

/-- Scan for a word-boundary-anchored match: `pw` records whether the
previous character was a word character (for the leading `\b`). -/
def searchWB (m : List Char → Bool) : Bool → List Char → Bool
  | _, [] => false
  | pw, c :: cs => (!pw && m (c :: cs)) || searchWB m (wordChar c) cs

/-- Leftmost unanchored match returning a capture. -/
def searchCap (m : List Char → Option String) : List Char → Option String
  | [] => none
  | c :: cs =>
    match m (c :: cs) with
    | some t => some t
    | none => searchCap m cs

/-- Leftmost unanchored Boolean match (JS `RegExp.test` without `\b`). -/
def searchAny (m : List Char → Bool) : List Char → Bool
  | [] => false
  | c :: cs => m (c :: cs) || searchAny m cs

/-- JS `String.prototype.includes`: substring containment. -/
def containsSub (s pat : String) : Bool := searchAny (startsWithL pat.data) s.data

/-! ### The command patterns of the pre-bash hook -/

/-- Matcher for `kubectl\s+` at the current position. -/
def mKubectl (l : List Char) : Bool :=
  match splitLit "kubectl".data l with
  | some r => (stripSpaces1 r).isSome
  | none => false

/-- Embeds the test of the kubectl regex with leading word boundary. -/
def testKubectl (command : String) : Bool := searchWB mKubectl false command.data

/-- Matcher for `helm\s+(install|upgrade)\b` at the current position. -/
def mHelmInstall (l : List Char) : Bool :=
  match (splitLit "helm".data l).bind stripSpaces1 with
  | some r =>
    (match splitLit "install".data r with
     | some r2 => boundaryAfter r2
     | none => false) ||
    (match splitLit "upgrade".data r with
     | some r2 => boundaryAfter r2
     | none => false)
  | none => false

/-- Embeds the test of the helm install/upgrade regex. -/
def testHelmInstall (command : String) : Bool :=
  searchWB mHelmInstall false command.data

/-- Matcher for `helm\s+template\b` at the current position. -/
def mHelmTemplate (l : List Char) : Bool :=
  match ((splitLit "helm".data l).bind stripSpaces1).bind (splitLit "template".data) with
  | some r => boundaryAfter r
  | none => false

/-- Embeds the test of the helm template regex. -/
def testHelmTemplate (command : String) : Bool :=
  searchWB mHelmTemplate false command.data

/-- Capture for `/helm\s+template\s+(\S+)/` at the current position. -/
def mHelmTemplateCap (l : List Char) : Option String :=
  (((splitLit "helm".data l).bind stripSpaces1).bind
      (splitLit "template".data)).bind stripSpaces1 |>.bind takeTok

/-- Embeds the captured group of the helm template extraction regex. -/
def extractHelmTemplate (command : String) : Option String :=
  searchCap mHelmTemplateCap command.data

/-- Matcher for `argocd\s+app\s+diff\b` at the current position. -/
def mArgoDiff (l : List Char) : Bool :=
  match ((((splitLit "argocd".data l).bind stripSpaces1).bind
      (splitLit "app".data)).bind stripSpaces1).bind (splitLit "diff".data) with
  | some r => boundaryAfter r
  | none => false

/-- Embeds the test of the argocd app diff regex. -/
def testArgoDiff (command : String) : Bool := searchWB mArgoDiff false command.data

/-- Capture for `/argocd\s+app\s+diff\s+(\S+)/`. -/
def mArgoDiffCap (l : List Char) : Option String :=
  ((((((splitLit "argocd".data l).bind stripSpaces1).bind
      (splitLit "app".data)).bind stripSpaces1).bind
      (splitLit "diff".data)).bind stripSpaces1).bind takeTok

/-- Embeds the captured group of the argocd app diff extraction regex. -/
def extractArgoDiff (command : String) : Option String :=
  searchCap mArgoDiffCap command.data

/-- Matcher for `argocd\s+app\s+sync\b` at the current position. -/
def mArgoSync (l : List Char) : Bool :=
  match ((((splitLit "argocd".data l).bind stripSpaces1).bind
      (splitLit "app".data)).bind stripSpaces1).bind (splitLit "sync".data) with
  | some r => boundaryAfter r
  | none => false

/-- Embeds the test of the argocd app sync regex. -/
def testArgoSync (command : String) : Bool := searchWB mArgoSync false command.data

/-- Capture for `/argocd\s+app\s+sync\s+(\S+)/`. -/
def mArgoSyncCap (l : List Char) : Option String :=
  ((((((splitLit "argocd".data l).bind stripSpaces1).bind
      (splitLit "app".data)).bind stripSpaces1).bind
      (splitLit "sync".data)).bind stripSpaces1).bind takeTok

/-- Embeds the captured group of the argocd app sync extraction regex. -/
def extractArgoSync (command : String) : Option String :=
  searchCap mArgoSyncCap command.data

/-- Matcher for `git\s+push\b` at the current position. -/
def mGitPush (l : List Char) : Bool :=
  match ((splitLit "git".data l).bind stripSpaces1).bind (splitLit "push".data) with
  | some r => boundaryAfter r
  | none => false

/-- Embeds the test of the git push regex. -/
def testGitPush (command : String) : Bool := searchWB mGitPush false command.data

/-! ### Session state, decisions, and the command-classification hook -/

/-- The session-state blob persisted at the well-known path. -/
structure SessionState where
  validatedApps : List String
  diffedApps : List String
  lastCommand : String
  loopCount : Nat
deriving DecidableEq, Repr

/-- The zero default `loadSessionState` falls back to. -/
def defaultSessionState : SessionState :=
  { validatedApps := [], diffedApps := [], lastCommand := "", loopCount := 0 }

/-- The decision the hook emits; `allow` is the silent `exit 0`. -/
inductive Decision where
  | allow : Decision
  | deny : String → Decision
  | ask : String → Decision
deriving DecidableEq, Repr

/-- Single-quote character, used inside several hook messages. -/
def sq : String := String.singleton (Char.ofNat 39)

def loopMsg (n : Nat) : String :=
  "Loop detected: same command repeated " ++ toString n ++
    " times. Fix the underlying issue."

def kubectlDenyMsg : String :=
  "kubectl is blocked. Use omnictl, talosctl, or ArgoCD via git. " ++
    "For bootstrap: export TALOS_GITOPS_BOOTSTRAP=true"

def kubectlAskMsg : String := "Bootstrap mode: kubectl allowed. Proceed?"

def helmDenyMsg : String :=
  "helm install/upgrade is blocked. Use GitOps: edit values.yaml, git push, " ++
    "let ArgoCD sync. For bootstrap: export TALOS_GITOPS_BOOTSTRAP=true"

def helmAskMsg : String := "Bootstrap mode: helm install allowed. Proceed?"

def syncNoDiffMsg (appName : String) : String :=
  "No " ++ sq ++ "argocd app diff " ++ appName ++ sq ++
    " in this session. Run diff first or proceed anyway?"

def syncPreferPushMsg : String :=
  "Prefer " ++ sq ++ "git push" ++ sq ++
    " and let ArgoCD auto-sync. Proceed with manual sync?"

/-- The branch chain of the pre-bash hook after the loop-detection step
(kubectl, helm install/upgrade, helm template, argocd app diff,
argocd app sync, git push, default).  Every branch returns the state it
saves alongside the decision it prints (`allow` prints nothing). -/
def classifyCmd (bootstrapMode : Bool) (st : SessionState) (command : String) :
    Decision × SessionState :=
  if testKubectl command then
    (if bootstrapMode then .ask kubectlAskMsg else .deny kubectlDenyMsg, st)
  else if testHelmInstall command then
    (if bootstrapMode then .ask helmAskMsg else .deny helmDenyMsg, st)
  else if testHelmTemplate command then
    (.allow,
      match extractHelmTemplate command with
      | some t => { st with validatedApps := st.validatedApps ++ [t] }
      | none => st)
  else if testArgoDiff command then
    (.allow,
      match extractArgoDiff command with
      | some t => { st with diffedApps := st.diffedApps ++ [t] }
      | none => st)
  else if testArgoSync command then
    (if st.diffedApps.contains ((extractArgoSync command).getD "unknown") then
       .ask syncPreferPushMsg
     else .ask (syncNoDiffMsg ((extractArgoSync command).getD "unknown")), st)
  else if testGitPush command then (.allow, st)
  else (.allow, st)

/-- The whole command path of the pre-bash hook, starting with loop
detection, for an event received inside a detected GitOps repo.  The
comparison with `lastCommand` is exact string equality. -/
def classify (bootstrapMode : Bool) (state : SessionState) (command : String) :
    Decision × SessionState :=
  if command = state.lastCommand then
    if 2 ≤ state.loopCount + 1 then
      (.deny (loopMsg (state.loopCount + 1)), { state with loopCount := 0 })
    else
      classifyCmd bootstrapMode { state with loopCount := state.loopCount + 1 }
        command
  else
    classifyCmd bootstrapMode
      { state with lastCommand := command, loopCount := 0 } command

/-! ### Repository root discovery (cluster-context.ts) -/

/-- The fixed GitOps markers tested at each level. -/
def markers : List String := ["omniconfig.yaml", "apps", ".talos-gitops-ops"]

/-- Path join for an absolute directory and a relative marker. -/
def joinPath (dir m : String) : String :=
  if dir = "/" then "/" ++ m else dir ++ "/" ++ m

/-- Absolute path of a directory given as its components, innermost first
(`["repo", "user", "home"]` is `/home/user/repo`); `[]` is the root `/`.
`dirname` drops the head component. -/
def pathOfComps : List String → String
  | [] => "/"
  | c :: rest => "/" ++ String.intercalate "/" (c :: rest).reverse

/-- Does `stat` succeed on any marker inside `dir`?  `ex` is the set of
paths that exist on disk. -/
def hasMarker (ex : String → Bool) (dir : String) : Bool :=
  markers.any (fun m => ex (joinPath dir m))

/-- Embeds `findRepoRoot`: walk upward while the current directory is not the root,
returning the first directory containing a marker, else `none`.  The root
`/` itself is never tested, exactly as in the source loop. -/
def findRepoRoot (ex : String → Bool) : List String → Option String
  | [] => none
  | c :: rest =>
    if hasMarker ex (pathOfComps (c :: rest)) then some (pathOfComps (c :: rest))
    else findRepoRoot ex rest

/-- Embeds `isGitOpsRepo`: the walk found a root. -/
def isGitOpsRepo (ex : String → Bool) (comps : List String) : Bool :=
  (findRepoRoot ex comps).isSome

/-- The non-root directories the walk visits, nearest first. -/
def ancestorChain : List String → List (List String)
  | [] => []
  | c :: rest => (c :: rest) :: ancestorChain rest

/-! ### Cluster context data model (types.ts) and the context cache -/

inductive NodeRole where
  | controlPlane : NodeRole
  | worker : NodeRole
deriving DecidableEq, Repr

structure Node where
  name : String
  ip : String
  role : NodeRole
deriving DecidableEq, Repr

structure ChartRef where
  repo : String
  name : String
  version : String
deriving DecidableEq, Repr

inductive PsaLevel where
  | privileged : PsaLevel
  | baseline : PsaLevel
  | restricted : PsaLevel
deriving DecidableEq, Repr

structure AppDefinition where
  name : String
  namespaceName : String
  chart : ChartRef
  valuesPath : String
  hasTolerations : Bool
  psaLevel : Option PsaLevel
  ignoreDifferences : Bool
deriving DecidableEq, Repr

/-- The aggregate context; `apps` is the `Map` in insertion order. -/
structure ClusterContext where
  name : String
  omniEndpoint : Option String
  nodes : List Node
  domain : Option String
  apps : List (String × AppDefinition)
  repoRoot : String
deriving DecidableEq, Repr

/-- The module-level mutable cache of cluster-context.ts
(`cachedContext` / `cacheTime`). -/
structure CacheSt where
  cachedContext : Option ClusterContext
  cacheTime : Nat
deriving DecidableEq, Repr

def CACHE_TTL : Nat := 30000

/-- The cache-miss path of `detectClusterContext`: `build` is the uncached
context construction of lines 205-268 of cluster-context.ts (root discovery
followed by the omniconfig / nodes / apps / domain scans against the current
on-disk repository), abstracted as a function of the start directory; it
returns `none` exactly when `findRepoRoot` fails, and on success the built
context is stored in the cache stamped with the current time `now`. -/
def detectFresh (build : String → Option ClusterContext) (cwd : String)
    (now : Nat) (st : CacheSt) : Option ClusterContext × CacheSt :=
  match build cwd with
  | none => (none, st)
  | some context => (some context, { cachedContext := some context, cacheTime := now })

/-- Embeds `detectClusterContext`: serve from the cache while it is populated and
younger than the TTL, otherwise rebuild. -/
def detectClusterContext (build : String → Option ClusterContext) (cwd : String)
    (now : Nat) (st : CacheSt) : Option ClusterContext × CacheSt :=
  match st.cachedContext with
  | some ctx =>
    if now - st.cacheTime < CACHE_TTL then (some ctx, st)
    else detectFresh build cwd now st
  | none => detectFresh build cwd now st

/-- Embeds `invalidateCache`: clear the cache immediately. -/
def invalidateCache (_st : CacheSt) : CacheSt :=
  { cachedContext := none, cacheTime := 0 }

/-- Embeds `getApp`: detect (possibly from cache) and look the name up in `apps`. -/
def getApp (build : String → Option ClusterContext) (cwd : String) (now : Nat)
    (st : CacheSt) (name : String) : Option AppDefinition × CacheSt :=
  let r := detectClusterContext build cwd now st
  (match r.1 with
   | some ctx => ctx.apps.lookup name
   | none => none, r.2)

/-- Embeds `getAppNames`: detect (possibly from cache) and list the app names. -/
def getAppNames (build : String → Option ClusterContext) (cwd : String)
    (now : Nat) (st : CacheSt) : List String × CacheSt :=
  let r := detectClusterContext build cwd now st
  (match r.1 with
   | some ctx => ctx.apps.map Prod.fst
   | none => [], r.2)

/-! ### Validation errors and the url-checker library -/

inductive Severity where
  | error : Severity
  | warning : Severity
deriving DecidableEq, Repr

structure ValidationError where
  file : String
  line : Option Nat
  severity : Severity
  message : String
  fix : Option String
deriving DecidableEq, Repr

/-- Outcome of a `checkUrl` HEAD probe (`fetch` is the network effect,
modelled as a parameter; a thrown/timed-out request carries `error`). -/
structure UrlCheckResult where
  url : String
  ok : Bool
  status : Option Nat
  error : Option String
deriving DecidableEq, Repr

/-- JS `${result.error || result.status}` with its truthiness rules. -/
def errOrStatus (r : UrlCheckResult) : String :=
  let statusStr :=
    match r.status with
    | some n => if n == 0 then "undefined" else toString n
    | none => "undefined"
  match r.error with
  | some e => if e == "" then statusStr else e
  | none => statusStr

/-- The JS `[\w.-]` class. -/
def wordDotDash (c : Char) : Bool := wordChar c || c == '.' || c == '-'

/-- The JS class of word characters, dot, dash and slash. -/
def wordDotDashSlash (c : Char) : Bool := wordDotDash c || c == '/'

/-- The anchored OCI format regex of the source: after `oci://`, a
non-empty run of `[\w.-]` up to a slash, then a non-empty tail of word
characters, dots, slashes and dashes. -/
def ociOk (u : String) : Bool :=
  match splitLit "oci://".data u.data with
  | none => false
  | some r =>
    let a := r.takeWhile wordDotDash
    let rest := r.dropWhile wordDotDash
    a != [] &&
      (match rest with
       | c :: b => c == '/' && b != [] && b.all wordDotDashSlash
       | [] => false)

/-- Index-file URL of a classic chart repo. -/
def indexUrlOf (repoUrl : String) : String :=
  if repoUrl.endsWith "/" then repoUrl ++ "index.yaml" else repoUrl ++ "/index.yaml"

/-- Embeds `validateChartRepo`: OCI URLs get a pure format check (no probe);
classic repos get a bounded HEAD probe of `index.yaml`, and a failed probe
yields a severity-`error` "Helm repo unreachable" diagnostic. -/
def validateChartRepo (probe : String → UrlCheckResult) (repoUrl : String) :
    Option ValidationError :=
  if strStarts "oci://" repoUrl then
    if !ociOk repoUrl then
      some { file := "", line := none, severity := .error,
             message := "Malformed OCI URL: " ++ repoUrl,
             fix := some "OCI URLs should be: oci://registry/path" }
    else none
  else
    let result := probe (indexUrlOf repoUrl)
    if !result.ok then
      some { file := "", line := none, severity := .error,
             message := "Helm repo unreachable: " ++ repoUrl ++ " (" ++
               errOrStatus result ++ ")",
             fix := some "Check the repo URL is correct and accessible" }
    else none

/-- Outcome of the `fetch` of the chart index inside `validateChartVersion`:
`failure` is a thrown error / timeout (the `catch` branch), `success`
carries `response.ok` and the body text. -/
inductive FetchResult where
  | failure : String → FetchResult
  | success : Bool → String → FetchResult
deriving DecidableEq, Repr

/-- Matcher for ``version:\s*["']?<ver>`` at the current position
(the trailing optional quote of the source regex constrains nothing). -/
def mVersionAt (ver : List Char) (l : List Char) : Bool :=
  match splitLit "version:".data l with
  | none => false
  | some r =>
    let r2 := r.dropWhile isSpc
    startsWithL ver r2 ||
      (match r2 with
       | c :: cs => (c == '"' || c == Char.ofNat 39) && startsWithL ver cs
       | [] => false)

/-- The regex containment test of `validateChartVersion` (the version is
regex-escaped in the source, hence a literal here). -/
def versionInIndex (text ver : String) : Bool :=
  searchAny (mVersionAt ver.data) text.data

/-- Embeds `validateChartVersion`: sentinels and OCI repos are skipped before any
network use; a thrown fetch degrades to a severity-`warning`
"Could not verify" outcome; a non-ok response or a missing version string
yield severity-`error` diagnostics. -/
def validateChartVersion (fetch : String → FetchResult)
    (repoUrl chartName version : String) : Option ValidationError :=
  if version == "HEAD" || version == "latest" || version == "*" then none
  else if strStarts "oci://" repoUrl then none
  else
    match fetch (indexUrlOf repoUrl) with
    | .failure msg =>
      some { file := "", line := none, severity := .warning,
             message := "Could not verify chart version: " ++ msg, fix := none }
    | .success ok text =>
      if !ok then
        some { file := "", line := none, severity := .error,
               message := "Cannot fetch chart index: " ++ repoUrl, fix := none }
      else if !versionInIndex text version then
        some { file := "", line := none, severity := .error,
               message := "Chart version not found: " ++ chartName ++ "@" ++ version,
               fix := some ("Check available versions with: helm search repo " ++
                 chartName ++ " --versions") }
      else none

/-! ### Application-manifest validation (validate-yaml hook)

The hook parses the submitted YAML first; we embed the pipeline from the
parsed document onward, so an `AppDoc` is the shape of the fields the code
reads off the parse result. -/

/-- One entry of `spec.sources` (absent fields are `none`; JS treats the
empty string as falsy, which the definitions below reproduce). -/
structure SourceDoc where
  repoURL : Option String
  chart : Option String
  targetRevision : Option String
  path : Option String
deriving DecidableEq, Repr

/-- The fields of a parsed Application manifest the hook reads.
`ignoreDifferencesLen` is `spec.ignoreDifferences?.length ?? 0`. -/
structure AppDoc where
  kind : String
  sources : Option (List SourceDoc)
  source : Option SourceDoc
  ignoreDifferencesLen : Nat
deriving DecidableEq, Repr

/-- Embeds the JS fallback from plural sources to the singular source (a present but
empty `sources` array is truthy in JS and is kept). -/
def effSources (doc : AppDoc) : List SourceDoc :=
  match doc.sources with
  | some l => l
  | none =>
    match doc.source with
    | some s => [s]
    | none => []

/-- The per-source body of the `validateApplicationYaml` loop: chart-repo
check and version check for non-SSH repo URLs, then the generic
reachability probe for `https://` URLs. -/
def sourceErrors (probe : String → UrlCheckResult) (fetch : String → FetchResult)
    (filePath : String) (src : SourceDoc) : List ValidationError :=
  (match src.repoURL with
   | none => []
   | some u =>
     if u != "" && !strStarts "git@" u then
       (match validateChartRepo probe u with
        | some e => [{ e with file := filePath }]
        | none => []) ++
       (match src.chart, src.targetRevision with
        | some c, some rev =>
          if c != "" && rev != "" then
            match validateChartVersion fetch u c rev with
            | some e => [{ e with file := filePath }]
            | none => []
          else []
        | _, _ => [])
     else []) ++
  (match src.repoURL with
   | none => []
   | some u =>
     if strStarts "https://" u then
       if (probe u).ok then []
       else [{ file := filePath, line := none, severity := .error,
               message := "Git repo unreachable: " ++ u, fix := none }]
     else [])

/-- The ignoreDifferences advice for known problematic charts, appended
after the source loop. -/
def igWarnings (doc : AppDoc) (filePath : String) : List ValidationError :=
  let chartNames := (effSources doc).filterMap (fun s =>
    match s.chart with
    | some c => if c != "" then some c else none
    | none => none)
  (chartNames.map (fun chart =>
    if (containsSub chart "harbor" || containsSub chart "argocd") &&
        doc.ignoreDifferencesLen == 0 then
      [{ file := filePath, line := none, severity := Severity.warning,
         message := chart ++ " chart typically needs ignoreDifferences for auto-generated secrets",
         fix := some "Add ignoreDifferences for secrets that change on each helm render" }]
    else [])).flatten

/-- Embeds `validateApplicationYaml` from the parsed document onward. -/
def validateApplicationYaml (probe : String → UrlCheckResult)
    (fetch : String → FetchResult) (doc : AppDoc) (filePath : String) :
    List ValidationError :=
  if doc.kind ≠ "Application" then []
  else ((effSources doc).map (sourceErrors probe fetch filePath)).flatten ++
    igWarnings doc filePath

/-! ### The decision aggregation of the validate-yaml hook -/

def fmtLoc (e : ValidationError) : String :=
  match e.line with
  | some n => if n == 0 then "" else ":" ++ toString n
  | none => ""

def fmtFix (e : ValidationError) : String :=
  match e.fix with
  | some f => if f == "" then "" else " Fix: " ++ f
  | none => ""

/-- Embeds `outputErrors`: any severity-`error` entry denies with the joined
error list; otherwise warnings ask; otherwise allow silently. -/
def outputDecision (errors : List ValidationError) : Decision :=
  let blocking := errors.filter (fun e => e.severity == Severity.error)
  let warnings := errors.filter (fun e => e.severity == Severity.warning)
  match blocking with
  | _ :: _ =>
    .deny ("Validation errors:\n" ++ String.intercalate "\n"
      (blocking.map (fun e => e.file ++ fmtLoc e ++ ": " ++ e.message ++ fmtFix e)))
  | [] =>
    match warnings with
    | _ :: _ =>
      .ask ("Warnings:\n" ++ String.intercalate "\n"
        (warnings.map (fun e => e.file ++ fmtLoc e ++ ": " ++ e.message)) ++
        "\n\nProceed anyway?")
    | [] => .allow

/-! ### Values-manifest validation (helm-validator.ts and the hook)

`checkTolerations` and `checkCommonMistakes` take the *path* of the edited
file and re-read it from disk (`fsRead`); the YAML parser is an
uninterpreted parameter `parse` producing a document tree. -/

/-- A parsed YAML document tree. -/
inductive Yaml where
  | nullVal : Yaml
  | boolVal : Bool → Yaml
  | numVal : Int → Yaml
  | strVal : String → Yaml
  | arr : List Yaml → Yaml
  | obj : List (String × Yaml) → Yaml

/-- JS falsiness of a parsed document (`if (!doc) return []`). -/
def yamlFalsy : Yaml → Bool
  | .nullVal => true
  | .boolVal b => !b
  | .numVal n => n == 0
  | .strVal s => s == ""
  | _ => false

/-- Field access on a document (`undefined` on non-objects). -/
def yamlGet (y : Yaml) (key : String) : Option Yaml :=
  match y with
  | .obj kvs => kvs.lookup key
  | _ => none

/-- Embeds `getNestedValue`: walk a dot-separated path. -/
def getNestedValue (y : Yaml) (path : String) : Option Yaml :=
  (path.splitOn ".").foldl
    (fun cur k =>
      match cur with
      | some v => yamlGet v k
      | none => none)
    (some y)

/-- Does a toleration entry carry the control-plane key or a wildcard
operator?  (Field access on a non-object entry is `undefined` in JS and
compares unequal to any string.) -/
def tolEntryOk (t : Yaml) : Bool :=
  (match yamlGet t "key" with
   | some (.strVal s) => s == "node-role.kubernetes.io/control-plane"
   | _ => false) ||
  (match yamlGet t "operator" with
   | some (.strVal s) => s == "Exists"
   | _ => false)

/-- The fixed list of dotted toleration paths scanned by the validator. -/
def tolerationPaths : List String :=
  ["tolerations", "global.tolerations", "controller.tolerations",
   "operator.tolerations", "operatorConfig.tolerations", "manager.tolerations",
   "server.tolerations", "agent.tolerations"]

def tolWarnMsg (path : String) : String :=
  "Tolerations at " ++ path ++ " may be missing control-plane toleration"

def tolWarnFix : String :=
  "Add: \x7b key: \"node-role.kubernetes.io/control-plane\", operator: \"Exists\", effect: \"NoSchedule\" \x7d"

/-- First line-scan pattern of `checkCommonMistakes`: optional leading blanks then a master key. -/
def lineHasMaster (line : String) : Bool :=
  startsWithL "master:".data (line.data.dropWhile isSpc)

/-- Second line-scan pattern: a cpu key valued 1000m anywhere in the line. -/
def lineHasCpu1000m (line : String) : Bool :=
  searchAny
    (fun l =>
      match splitLit "cpu:".data l with
      | some r => startsWithL "1000m".data (r.dropWhile isSpc)
      | none => false)
    line.data

/-- Third line-scan pattern: the secret-key field name anywhere in the line. -/
def lineHasSecretKey (line : String) : Bool :=
  containsSub line "existingSecretPasswordKey:"

def masterMsg : String := "Bitnami charts use " ++ sq ++ "primary:" ++ sq ++
  " not " ++ sq ++ "master:" ++ sq

def masterFix : String := "Replace " ++ sq ++ "master:" ++ sq ++ " with " ++
  sq ++ "primary:" ++ sq

def cpuMsg : String := "CPU value " ++ sq ++ "1000m" ++ sq ++
  " will normalize to " ++ sq ++ "1" ++ sq ++ ", may cause drift"

def cpuFix : String := "Use " ++ sq ++ "cpu: \"1\"" ++ sq ++ " instead of " ++
  sq ++ "cpu: 1000m" ++ sq

def secretKeyMsg : String := "Many charts require the key to be exactly " ++
  sq ++ "password" ++ sq

def secretKeyFix : String := "Check chart docs for required secret key name"

/-- The mistakes matched on one line, in the order of the source table. -/
def lineMistakes (line : String) : List (String × String) :=
  (if lineHasMaster line then [(masterMsg, masterFix)] else []) ++
  (if lineHasCpu1000m line then [(cpuMsg, cpuFix)] else []) ++
  (if lineHasSecretKey line then [(secretKeyMsg, secretKeyFix)] else [])

/-- JS `content.split("\n")` on the character list. -/
def splitOnNl : List Char → List (List Char)
  | [] => [[]]
  | c :: cs =>
    if c == '\n' then [] :: splitOnNl cs
    else
      match splitOnNl cs with
      | [] => [[c]]
      | t :: ts => (c :: t) :: ts

/-- Embeds `checkCommonMistakes`: read the file at `valuesPath` from disk (an
unreadable file yields no diagnostics) and scan it line by line. -/
def checkCommonMistakes (fsRead : String → Option String) (valuesPath : String) :
    List ValidationError :=
  match fsRead valuesPath with
  | none => []
  | some content =>
    (((splitOnNl content.data).map String.mk).enum.map (fun p =>
      (lineMistakes p.2).map (fun mf =>
        { file := valuesPath, line := some (p.1 + 1), severity := Severity.warning,
          message := mf.1, fix := some mf.2 }))).flatten

/-- Embeds `checkTolerations`: read and parse the file at `valuesPath` from disk,
then warn for every fixed path holding a toleration array without a
control-plane entry. -/
def checkTolerations (parse : String → Option Yaml)
    (fsRead : String → Option String) (valuesPath : String) :
    List ValidationError :=
  match fsRead valuesPath with
  | none => []
  | some content =>
    match parse content with
    | none => []
    | some doc =>
      if yamlFalsy doc then []
      else
        (tolerationPaths.map (fun path =>
          match getNestedValue doc path with
          | some (.arr entries) =>
            if entries.any tolEntryOk then []
            else [{ file := valuesPath, line := none, severity := Severity.warning,
                    message := tolWarnMsg path, fix := some tolWarnFix }]
          | _ => [])).flatten

def hostNetworkMsg : String := "hostNetwork requires privileged PSA namespace"

def hostNetworkFix : String :=
  "Ensure namespace has pod-security.kubernetes.io/enforce: privileged"

def recreateMsg : String := "hostNetwork deployments should use Recreate strategy"

def recreateFix : String := "Add deploymentStrategy.type: Recreate"

/-- Embeds `validateValuesYaml` of the validate-yaml hook: the toleration and
common-mistake scans run against the on-disk file at `filePath`, while the
two `hostNetwork` substring checks run against the submitted `content`. -/
def validateValuesYaml (parse : String → Option Yaml)
    (fsRead : String → Option String) (content : String) (filePath : String) :
    List ValidationError :=
  checkTolerations parse fsRead filePath ++
  checkCommonMistakes fsRead filePath ++
  (if containsSub content "hostNetwork: true" then
    [{ file := filePath, line := none, severity := Severity.warning,
       message := hostNetworkMsg, fix := some hostNetworkFix }]
   else []) ++
  (if containsSub content "hostNetwork: true" && !containsSub content "Recreate" then
    [{ file := filePath, line := none, severity := Severity.warning,
       message := recreateMsg, fix := some recreateFix }]
   else [])

/-! ## Helper lemmas -/

theorem splitLit_mem {p l r : List Char} (h : splitLit p l = some r) :
    ∀ c ∈ r, c ∈ l := by
  induction p generalizing l with
  | nil =>
    simp only [splitLit, Option.some.injEq] at h
    subst h
    exact fun _ hc => hc
  | cons p ps ih =>
    cases l with
    | nil => simp [splitLit] at h
    | cons c cs =>
      rw [splitLit] at h
      split at h
      · exact fun d hd => List.mem_cons_of_mem c (ih h d hd)
      · exact absurd h (by simp)

theorem stripSpaces1_space {l r : List Char} (h : stripSpaces1 l = some r) :
    ∃ c ∈ l, isSpc c = true := by
  cases l with
  | nil => simp [stripSpaces1] at h
  | cons c cs =>
    rw [stripSpaces1] at h
    split at h
    · exact ⟨c, List.mem_cons_self c cs, by assumption⟩
    · exact absurd h (by simp)

theorem bindSp_space {w l r : List Char}
    (h : (splitLit w l).bind stripSpaces1 = some r) :
    ∃ c ∈ l, isSpc c = true := by
  rcases Option.bind_eq_some.mp h with ⟨mid, h1, h2⟩
  rcases stripSpaces1_space h2 with ⟨c, hc, hs⟩
  exact ⟨c, splitLit_mem h1 c hc, hs⟩

theorem mKubectl_space {l : List Char} (h : mKubectl l = true) :
    ∃ c ∈ l, isSpc c = true := by
  unfold mKubectl at h
  split at h
  · rcases Option.isSome_iff_exists.mp h with ⟨r2, hr2⟩
    rcases stripSpaces1_space hr2 with ⟨c, hc, hs⟩
    exact ⟨c, splitLit_mem (by assumption) c hc, hs⟩
  · exact absurd h (by simp)

theorem mHelmInstall_space {l : List Char} (h : mHelmInstall l = true) :
    ∃ c ∈ l, isSpc c = true := by
  unfold mHelmInstall at h
  split at h
  · exact bindSp_space (by assumption)
  · exact absurd h (by simp)

theorem mHelmTemplate_space {l : List Char} (h : mHelmTemplate l = true) :
    ∃ c ∈ l, isSpc c = true := by
  unfold mHelmTemplate at h
  split at h
  · rename_i r heq
    rcases Option.bind_eq_some.mp heq with ⟨mid, h1, _⟩
    exact bindSp_space h1
  · exact absurd h (by simp)

theorem mArgoDiff_space {l : List Char} (h : mArgoDiff l = true) :
    ∃ c ∈ l, isSpc c = true := by
  unfold mArgoDiff at h
  split at h
  · rename_i r heq
    rcases Option.bind_eq_some.mp heq with ⟨m3, h3, _⟩
    rcases Option.bind_eq_some.mp h3 with ⟨m2, h2, _⟩
    rcases Option.bind_eq_some.mp h2 with ⟨m1, h1, _⟩
    exact bindSp_space h1
  · exact absurd h (by simp)

theorem mArgoSync_space {l : List Char} (h : mArgoSync l = true) :
    ∃ c ∈ l, isSpc c = true := by
  unfold mArgoSync at h
  split at h
  · rename_i r heq
    rcases Option.bind_eq_some.mp heq with ⟨m3, h3, _⟩
    rcases Option.bind_eq_some.mp h3 with ⟨m2, h2, _⟩
    rcases Option.bind_eq_some.mp h2 with ⟨m1, h1, _⟩
    exact bindSp_space h1
  · exact absurd h (by simp)

theorem searchWB_eq_false {m : List Char → Bool}
    (hm : ∀ l', m l' = true → ∃ c ∈ l', isSpc c = true)
    (pw : Bool) (l : List Char) (hl : ∀ c ∈ l, isSpc c = false) :
    searchWB m pw l = false := by
  induction l generalizing pw with
  | nil => rfl
  | cons c cs ih =>
    rw [searchWB]
    have hm' : m (c :: cs) = false := by
      cases hx : m (c :: cs) with
      | false => rfl
      | true =>
        rcases hm _ hx with ⟨d, hd, hs⟩
        rw [hl d hd] at hs
        exact absurd hs (by simp)
    rw [hm', ih (wordChar c) (fun d hd => hl d (List.mem_cons_of_mem c hd))]
    simp

theorem dropWhile_nospc (l : List Char) (h : ∀ c ∈ l, isSpc c = false) :
    l.dropWhile isSpc = l := by
  cases l with
  | nil => rfl
  | cons c cs =>
    rw [List.dropWhile_cons, h c (List.mem_cons_self c cs)]
    simp

theorem takeWhile_nospc (l : List Char) (h : ∀ c ∈ l, isSpc c = false) :
    l.takeWhile (fun c => !isSpc c) = l := by
  induction l with
  | nil => rfl
  | cons c cs ih =>
    rw [List.takeWhile_cons, h c (List.mem_cons_self c cs)]
    simp only [Bool.not_false, if_true]
    rw [ih (fun d hd => h d (List.mem_cons_of_mem c hd))]

theorem takeTok_nospc (l : List Char) (hne : l ≠ [])
    (h : ∀ c ∈ l, isSpc c = false) : takeTok l = some (String.mk l) := by
  unfold takeTok
  rw [takeWhile_nospc l h]
  cases l with
  | nil => exact absurd rfl hne
  | cons c cs => rfl

/-! ## C8: repository root discovery -/

/-- C8: for every start directory (given by its components, innermost
first), `findRepoRoot` returns the path of the first (nearest) non-root
directory on the upward walk that contains one of the fixed markers
(`omniconfig.yaml`, `apps`, `.talos-gitops-ops`), and `none` when the walk
reaches the filesystem root with no directory on the path containing a
marker. -/
theorem C8_find_repo_root (ex : String → Bool) (comps : List String) :
    findRepoRoot ex comps =
      ((ancestorChain comps).find?
        (fun d => hasMarker ex (pathOfComps d))).map pathOfComps := by
  induction comps with
  | nil => rfl
  | cons c rest ih =>
    by_cases h : hasMarker ex (pathOfComps (c :: rest)) = true
    · simp [findRepoRoot, ancestorChain, List.find?, h]
    · rw [Bool.not_eq_true] at h
      simp [findRepoRoot, ancestorChain, List.find?, h, ih]

/-! ## C6 and C9: the context cache -/

theorem detectFresh_fst (build : String → Option ClusterContext) (cwd : String)
    (now : Nat) (st : CacheSt) : (detectFresh build cwd now st).1 = build cwd := by
  unfold detectFresh
  cases h : build cwd <;> simp [h]

/-- C6: a second detection within the TTL window of the cache entry a
first successful detection left behind returns the identical
`ClusterContext` (value identity standing in for the reference identity of
the single cached object) and leaves the cache untouched; after an
explicit `invalidateCache`, or when the TTL has expired, detection returns
the fresh build of the current on-disk repository (`build cwd`), so a
structural change on disk is reflected in the result. -/
theorem C6_cache_roundtrip (build1 build2 : String → Option ClusterContext)
    (cwd1 cwd2 : String) (now1 now2 : Nat) (st0 st1 : CacheSt)
    (ctx : ClusterContext)
    (h1 : detectClusterContext build1 cwd1 now1 st0 = (some ctx, st1))
    (h2 : now2 - st1.cacheTime < CACHE_TTL) :
    detectClusterContext build2 cwd2 now2 st1 = (some ctx, st1) ∧
    (∀ (build3 : String → Option ClusterContext) (cwd3 : String) (now3 : Nat)
        (st : CacheSt),
      (detectClusterContext build3 cwd3 now3 (invalidateCache st)).1 = build3 cwd3) ∧
    (∀ (build3 : String → Option ClusterContext) (cwd3 : String) (now3 : Nat)
        (st : CacheSt), CACHE_TTL ≤ now3 - st.cacheTime →
      (detectClusterContext build3 cwd3 now3 st).1 = build3 cwd3) := by
  have hcached : st1.cachedContext = some ctx := by
    unfold detectClusterContext detectFresh at h1
    split at h1
    · split at h1
      · rw [(Prod.mk.injEq _ _ _ _).mp h1 |>.2.symm]
        rw [← (Prod.mk.injEq _ _ _ _).mp h1 |>.1]
        assumption
      · split at h1
        · exact absurd ((Prod.mk.injEq _ _ _ _).mp h1).1 (by simp)
        · rw [(Prod.mk.injEq _ _ _ _).mp h1 |>.2.symm]
          simpa using ((Prod.mk.injEq _ _ _ _).mp h1).1
    · split at h1
      · exact absurd ((Prod.mk.injEq _ _ _ _).mp h1).1 (by simp)
      · rw [(Prod.mk.injEq _ _ _ _).mp h1 |>.2.symm]
        simpa using ((Prod.mk.injEq _ _ _ _).mp h1).1
  refine ⟨?_, ?_, ?_⟩
  · unfold detectClusterContext
    rw [hcached]
    simp only [if_pos h2]
  · intro build3 cwd3 now3 st
    unfold detectClusterContext invalidateCache
    exact detectFresh_fst build3 cwd3 now3 _
  · intro build3 cwd3 now3 st h
    unfold detectClusterContext
    cases hc : st.cachedContext with
    | none => exact detectFresh_fst build3 cwd3 now3 st
    | some c =>
      show (if now3 - st.cacheTime < CACHE_TTL then (some c, st)
            else detectFresh build3 cwd3 now3 st).1 = build3 cwd3
      rw [if_neg (by omega)]
      exact detectFresh_fst build3 cwd3 now3 st

def app0 : AppDefinition :=
  { name := "redis", namespaceName := "default",
    chart := { repo := "https://charts.example.com", name := "redis",
               version := "1.0.0" },
    valuesPath := "/repo/apps/redis/values.yaml", hasTolerations := false,
    psaLevel := none, ignoreDifferences := false }

def ctx0 : ClusterContext :=
  { name := "prod", omniEndpoint := none, nodes := [], domain := none,
    apps := [("redis", app0)], repoRoot := "/repo" }

/-- Witness for C6 at a concrete build, clock, and cache state. -/
theorem C6_cache_roundtrip_witness :
    detectClusterContext (fun _ => some ctx0) "/elsewhere" 1005
      { cachedContext := some ctx0, cacheTime := 1000 } =
      (some ctx0, { cachedContext := some ctx0, cacheTime := 1000 }) := by
  have h := C6_cache_roundtrip (fun _ => some ctx0) (fun _ => some ctx0)
    "/repo" "/elsewhere" 1000 1005
    { cachedContext := none, cacheTime := 0 }
    { cachedContext := some ctx0, cacheTime := 1000 } ctx0 rfl (by decide)
  exact h.1

/-- C9: while the cache is populated and inside the TTL window, detection,
`getApp` and `getAppNames` answer from the cached context for every
`build`/start-directory pair — including a start directory outside any
repository (where `build` returns `none`). -/
theorem C9_cache_keyed_by_nothing (build : String → Option ClusterContext)
    (cwd : String) (now : Nat) (st : CacheSt) (ctx : ClusterContext)
    (name : String)
    (hc : st.cachedContext = some ctx)
    (ht : now - st.cacheTime < CACHE_TTL) :
    detectClusterContext build cwd now st = (some ctx, st) ∧
    (getApp build cwd now st name).1 = ctx.apps.lookup name ∧
    (getAppNames build cwd now st).1 = ctx.apps.map Prod.fst := by
  have hd : detectClusterContext build cwd now st = (some ctx, st) := by
    unfold detectClusterContext
    rw [hc]
    simp only [if_pos ht]
  refine ⟨hd, ?_, ?_⟩
  · unfold getApp
    rw [hd]
  · unfold getAppNames
    rw [hd]

/-- Witness for C9: the cached context answers even from a directory where
root discovery would fail. -/
theorem C9_cache_keyed_by_nothing_witness :
    (getApp (fun _ => none) "/not-a-repo" 2005
      { cachedContext := some ctx0, cacheTime := 2000 } "redis").1 = some app0 := by
  have h := C9_cache_keyed_by_nothing (fun _ => none) "/not-a-repo" 2005
    { cachedContext := some ctx0, cacheTime := 2000 } ctx0 "redis" rfl (by decide)
  rw [h.2.1]
  rfl

/-! ## C2: remote-check failures during edit validation -/

theorem splitLit_append {p l r : List Char} (h : splitLit p l = some r) :
    l = p ++ r := by
  induction p generalizing l with
  | nil =>
    simp only [splitLit, Option.some.injEq] at h
    subst h
    rfl
  | cons p ps ih =>
    cases l with
    | nil => simp [splitLit] at h
    | cons c cs =>
      rw [splitLit] at h
      split at h
      · rename_i hpc
        have hp : p = c := by simpa using hpc
        subst hp
        rw [List.cons_append]
        exact congrArg (p :: ·) (ih h)
      · exact absurd h (by simp)

theorem strStarts_data {p s : String} (h : strStarts p s = true) :
    ∃ r, s.data = p.data ++ r := by
  unfold strStarts startsWithL at h
  rcases Option.isSome_iff_exists.mp h with ⟨r, hr⟩
  exact ⟨r, splitLit_append hr⟩

/-- C2 counterexample: an Application manifest with a single `https://`
chart source, validated while every probe fails with a network timeout,
yields two severity-`error` diagnostics — the remote-check failure alone
produces errors, not warnings. -/
theorem C2_counterexample :
    validateApplicationYaml
        (fun u => { url := u, ok := false, status := none,
                    error := some "network timeout" })
        (fun _ => .failure "network timeout")
        { kind := "Application", sources := none,
          source := some { repoURL := some "https://charts.example.com",
                           chart := none, targetRevision := none, path := none },
          ignoreDifferencesLen := 0 }
        "apps/x/application.yaml" =
      [{ file := "apps/x/application.yaml", line := none, severity := .error,
         message := "Helm repo unreachable: https://charts.example.com (network timeout)",
         fix := some "Check the repo URL is correct and accessible" },
       { file := "apps/x/application.yaml", line := none, severity := .error,
         message := "Git repo unreachable: https://charts.example.com",
         fix := none }] := by
  rfl

/-- C2 as amended: only the chart-version existence check degrades to a
warning-level "could not verify" outcome on a thrown fetch; a failed
reachability probe of a classic (non-OCI) chart repo yields a
severity-`error` "Helm repo unreachable" diagnostic, and any
severity-`error` diagnostic in the batch turns the edit decision into
deny. -/
theorem C2_remote_failure_amended (fetch : String → FetchResult)
    (probe : String → UrlCheckResult) (repoUrl chartName version msg : String)
    (errs : List ValidationError) (e : ValidationError)
    (hv : (version == "HEAD" || version == "latest" || version == "*") = false)
    (hoci : strStarts "oci://" repoUrl = false)
    (hfail : fetch (indexUrlOf repoUrl) = .failure msg)
    (hok : (probe (indexUrlOf repoUrl)).ok = false)
    (he : e ∈ errs) (hsev : e.severity = Severity.error) :
    validateChartVersion fetch repoUrl chartName version =
      some { file := "", line := none, severity := .warning,
             message := "Could not verify chart version: " ++ msg, fix := none } ∧
    validateChartRepo probe repoUrl =
      some { file := "", line := none, severity := .error,
             message := "Helm repo unreachable: " ++ repoUrl ++ " (" ++
               errOrStatus (probe (indexUrlOf repoUrl)) ++ ")",
             fix := some "Check the repo URL is correct and accessible" } ∧
    (∃ m, outputDecision errs = .deny m) := by
  refine ⟨?_, ?_, ?_⟩
  · unfold validateChartVersion
    rw [hv, hoci]
    simp only [Bool.false_eq_true, if_false, hfail]
  · unfold validateChartRepo
    rw [hoci]
    simp only [Bool.false_eq_true, if_false, hok, Bool.not_false, if_true]
  · have hmem : e ∈ errs.filter (fun x => x.severity == Severity.error) :=
      List.mem_filter.mpr ⟨he, by rw [hsev]; rfl⟩
    unfold outputDecision
    cases hb : errs.filter (fun x => x.severity == Severity.error) with
    | nil =>
      rw [hb] at hmem
      exact absurd hmem (List.not_mem_nil e)
    | cons a t =>
      exact ⟨_, rfl⟩

/-- Witness for the amended C2 at a concrete failing network. -/
theorem C2_remote_failure_amended_witness :
    validateChartVersion (fun _ => .failure "connect ETIMEDOUT")
        "https://charts.example.com" "redis" "1.2.3" =
      some { file := "", line := none, severity := .warning,
             message := "Could not verify chart version: connect ETIMEDOUT",
             fix := none } ∧
    validateChartRepo
        (fun u => { url := u, ok := false, status := none,
                    error := some "connect ETIMEDOUT" })
        "https://charts.example.com" =
      some { file := "", line := none, severity := .error,
             message := "Helm repo unreachable: https://charts.example.com (connect ETIMEDOUT)",
             fix := some "Check the repo URL is correct and accessible" } ∧
    (∃ m, outputDecision
        [{ file := "apps/x/application.yaml", line := none,
           severity := Severity.error,
           message := "Git repo unreachable: https://charts.example.com",
           fix := none }] = .deny m) := by
  exact C2_remote_failure_amended (fun _ => .failure "connect ETIMEDOUT")
    (fun u => { url := u, ok := false, status := none,
                error := some "connect ETIMEDOUT" })
    "https://charts.example.com" "redis" "1.2.3" "connect ETIMEDOUT"
    [{ file := "apps/x/application.yaml", line := none,
       severity := Severity.error,
       message := "Git repo unreachable: https://charts.example.com",
       fix := none }]
    { file := "apps/x/application.yaml", line := none,
      severity := Severity.error,
      message := "Git repo unreachable: https://charts.example.com",
      fix := none }
    (by decide) (by decide) rfl rfl (by simp) rfl

/-! ## C7: malformed OCI sources -/

theorem validateChartVersion_oci (fetch : String → FetchResult)
    (u c rev : String) (h : strStarts "oci://" u = true) :
    validateChartVersion fetch u c rev = none := by
  unfold validateChartVersion
  by_cases hs : (rev == "HEAD" || rev == "latest" || rev == "*") = true
  · rw [if_pos hs]
  · rw [if_neg hs, if_pos h]

theorem igWarnings_warning (doc : AppDoc) (fp : String) :
    ∀ e ∈ igWarnings doc fp, e.severity = Severity.warning := by
  intro e he
  unfold igWarnings at he
  rw [List.mem_flatten] at he
  rcases he with ⟨l, hl, hel⟩
  rw [List.mem_map] at hl
  rcases hl with ⟨chart, _, rfl⟩
  split at hel
  · rw [List.mem_singleton] at hel
    rw [hel]
  · exact absurd hel (List.not_mem_nil e)

/-- C7: for an Application manifest whose only chart source carries a
malformed `oci://` repo location, validation emits exactly one
severity-`error` diagnostic for that source (everything else in the batch
is at most a warning), and no remote call is attempted: the result is the
same for every network behaviour. -/
theorem C7_malformed_oci (probe : String → UrlCheckResult)
    (fetch : String → FetchResult) (doc : AppDoc) (src : SourceDoc)
    (u filePath : String)
    (hkind : doc.kind = "Application")
    (hsrc : effSources doc = [src])
    (hurl : src.repoURL = some u)
    (hoci : strStarts "oci://" u = true)
    (hbad : ociOk u = false) :
    validateApplicationYaml probe fetch doc filePath =
      { file := filePath, line := none, severity := Severity.error,
        message := "Malformed OCI URL: " ++ u,
        fix := some "OCI URLs should be: oci://registry/path" } ::
        igWarnings doc filePath ∧
    (∀ e ∈ igWarnings doc filePath, e.severity = Severity.warning) ∧
    (∀ (probe2 : String → UrlCheckResult) (fetch2 : String → FetchResult),
      validateApplicationYaml probe2 fetch2 doc filePath =
        validateApplicationYaml probe fetch doc filePath) := by
  have hne : (u == "") = false := by
    rw [beq_eq_false_iff_ne]
    intro he
    rw [he] at hoci
    exact absurd hoci (by decide)
  rcases strStarts_data hoci with ⟨r, hr⟩
  have hgit : strStarts "git@" u = false := by
    unfold strStarts startsWithL
    rw [hr]
    rfl
  have hhttps : strStarts "https://" u = false := by
    unfold strStarts startsWithL
    rw [hr]
    rfl
  have hvcr : ∀ pr : String → UrlCheckResult, validateChartRepo pr u =
      some { file := "", line := none, severity := Severity.error,
             message := "Malformed OCI URL: " ++ u,
             fix := some "OCI URLs should be: oci://registry/path" } := by
    intro pr
    unfold validateChartRepo
    rw [hoci, hbad]
    simp
  have hcond : (u != "" && !strStarts "git@" u) = true := by
    rw [bne, hne, hgit]
    rfl
  have hse : ∀ (pr : String → UrlCheckResult) (fe : String → FetchResult),
      sourceErrors pr fe filePath src =
        [{ file := filePath, line := none, severity := Severity.error,
           message := "Malformed OCI URL: " ++ u,
           fix := some "OCI URLs should be: oci://registry/path" }] := by
    intro pr fe
    obtain ⟨sURL, sChart, sRev, sPath⟩ := src
    have hs : sURL = some u := hurl
    subst hs
    cases sChart with
    | none => simp [sourceErrors, hcond, hhttps, hvcr pr]
    | some c =>
      cases sRev with
      | none => simp [sourceErrors, hcond, hhttps, hvcr pr]
      | some rev =>
        simp [sourceErrors, hcond, hhttps, hvcr pr,
          validateChartVersion_oci fe u c rev hoci]
  have main : ∀ (pr : String → UrlCheckResult) (fe : String → FetchResult),
      validateApplicationYaml pr fe doc filePath =
        { file := filePath, line := none, severity := Severity.error,
          message := "Malformed OCI URL: " ++ u,
          fix := some "OCI URLs should be: oci://registry/path" } ::
          igWarnings doc filePath := by
    intro pr fe
    unfold validateApplicationYaml
    rw [if_neg (by rw [hkind]; simp), hsrc, List.map_cons, List.map_nil, hse pr fe]
    rfl
  exact ⟨main probe fetch, igWarnings_warning doc filePath,
    fun pr2 fe2 => by rw [main pr2 fe2, main probe fetch]⟩

def doc0 : AppDoc :=
  { kind := "Application",
    sources := some [{ repoURL := some "oci://registry", chart := none,
                       targetRevision := none, path := none }],
    source := none, ignoreDifferencesLen := 0 }

/-- A probe that reports every URL reachable. -/
def probeOk : String → UrlCheckResult :=
  fun u => { url := u, ok := true, status := some 200, error := none }

def src0 : SourceDoc :=
  { repoURL := some "oci://registry", chart := none,
    targetRevision := none, path := none }

/-- Witness for C7 at a concrete malformed OCI source. -/
theorem C7_malformed_oci_witness :
    validateApplicationYaml probeOk (fun _ => .failure "t") doc0
        "apps/x/application.yaml" =
      [{ file := "apps/x/application.yaml", line := none,
         severity := Severity.error,
         message := "Malformed OCI URL: oci://registry",
         fix := some "OCI URLs should be: oci://registry/path" }] := by
  have h := C7_malformed_oci probeOk (fun _ => .failure "t") doc0 src0
    "oci://registry" "apps/x/application.yaml"
    rfl rfl rfl (by decide) (by decide)
  rw [h.1]
  rfl

/-! ## C4: the common-mistakes scan reads the on-disk file -/

/-- C4 (code bug): the validate-yaml hook passes the edited file's *path*
to `checkCommonMistakes` / `checkTolerations`, which re-read the file from
disk, so the scans never see the submitted content.  First conjunct: a
values edit whose submitted content has `master:` at line 3 produces no
diagnostics at all when the on-disk file is absent (for every YAML parser
behaviour), contradicting the claimed single line-3 warning.  Second
conjunct: the line scan itself, when it is given that same text (as the
on-disk content), does produce exactly the claimed warning at line 3
recommending `primary:` — the defect is only which text is scanned. -/
theorem C4_master_line_scan :
    (∀ parse : String → Option Yaml,
      validateValuesYaml parse (fun _ => none) "a: 1\nb: 2\nmaster: x"
        "apps/redis/values.yaml" = []) ∧
    checkCommonMistakes (fun _ => some "a: 1\nb: 2\nmaster: x")
        "apps/redis/values.yaml" =
      [{ file := "apps/redis/values.yaml", line := some 3,
         severity := Severity.warning, message := masterMsg,
         fix := some masterFix }] := by
  constructor
  · intro parse
    rfl
  · rfl

/-! ## C1, C3, C10: the command-classification path -/

theorem classifyCmd_preserves (b : Bool) (st : SessionState) (cmd : String) :
    (classifyCmd b st cmd).2.lastCommand = st.lastCommand ∧
    (classifyCmd b st cmd).2.loopCount = st.loopCount := by
  unfold classifyCmd
  repeat' split
  all_goals exact ⟨rfl, rfl⟩

theorem classifyCmd_append (b : Bool) (st : SessionState) (cmd : String) :
    ∃ v d, (classifyCmd b st cmd).2.validatedApps = st.validatedApps ++ v ∧
      (classifyCmd b st cmd).2.diffedApps = st.diffedApps ++ d ∧
      (v ≠ [] → testHelmTemplate cmd = true) ∧
      (d ≠ [] → testArgoDiff cmd = true) := by
  unfold classifyCmd
  split
  · exact ⟨[], [], by simp, by simp, by simp, by simp⟩
  · split
    · exact ⟨[], [], by simp, by simp, by simp, by simp⟩
    · split
      · rename_i ht
        split
        · rename_i t _
          exact ⟨[t], [], by simp, by simp, fun _ => ht, by simp⟩
        · exact ⟨[], [], by simp, by simp, by simp, by simp⟩
      · split
        · rename_i hd
          split
          · rename_i t _
            exact ⟨[], [t], by simp, by simp, by simp, fun _ => hd⟩
          · exact ⟨[], [], by simp, by simp, by simp, by simp⟩
        · split
          · exact ⟨[], [], by simp, by simp, by simp, by simp⟩
          · split
            · exact ⟨[], [], by simp, by simp, by simp, by simp⟩
            · exact ⟨[], [], by simp, by simp, by simp, by simp⟩

/-- C10: on the command path the two session lists are append-only — the
loaded lists are a prefix of the saved ones — and a (single) element is
appended only when the helm-template pattern (for `validatedApps`) or the
argocd-app-diff pattern (for `diffedApps`) matched the command. -/
theorem C10_session_lists_append_only (b : Bool) (s : SessionState)
    (cmd : String) :
    ∃ v d, (classify b s cmd).2.validatedApps = s.validatedApps ++ v ∧
      (classify b s cmd).2.diffedApps = s.diffedApps ++ d ∧
      (v ≠ [] → testHelmTemplate cmd = true) ∧
      (d ≠ [] → testArgoDiff cmd = true) := by
  unfold classify
  split
  · split
    · exact ⟨[], [], by simp, by simp, by simp, by simp⟩
    · exact classifyCmd_append b _ cmd
  · exact classifyCmd_append b _ cmd

/-- C3: the loop-detection step compares the incoming command to the
stored `lastCommand` by exact string equality.  On equality the counter is
incremented; when the incremented count reaches the threshold 2 the engine
denies with the "loop detected" reason and saves the counter reset to 0
(everything else unchanged); below the threshold the saved state keeps
`lastCommand` and carries the incremented counter.  On inequality the
saved state has `lastCommand` replaced by the new command and the counter
reset to 0. -/
theorem C3_loop_detection (b : Bool) (s : SessionState) (cmd : String) :
    (cmd = s.lastCommand →
      (2 ≤ s.loopCount + 1 →
        classify b s cmd =
          (.deny (loopMsg (s.loopCount + 1)), { s with loopCount := 0 })) ∧
      (s.loopCount + 1 < 2 →
        (classify b s cmd).2.lastCommand = s.lastCommand ∧
        (classify b s cmd).2.loopCount = s.loopCount + 1)) ∧
    (cmd ≠ s.lastCommand →
      (classify b s cmd).2.lastCommand = cmd ∧
      (classify b s cmd).2.loopCount = 0) := by
  constructor
  · intro heq
    constructor
    · intro h2
      unfold classify
      rw [if_pos heq, if_pos h2]
    · intro h2
      unfold classify
      rw [if_pos heq, if_neg (by omega)]
      exact classifyCmd_preserves b { s with loopCount := s.loopCount + 1 } cmd
  · intro hne
    unfold classify
    rw [if_neg hne]
    exact classifyCmd_preserves b
      { s with lastCommand := cmd, loopCount := 0 } cmd

/-- Witness for C3: a third occurrence of `ls` (stored counter 1) is
denied as a loop and the saved counter is reset. -/
theorem C3_loop_detection_witness :
    classify false ⟨[], [], "ls", 1⟩ "ls" =
      (.deny (loopMsg 2), ⟨[], [], "ls", 0⟩) := by
  exact ((C3_loop_detection false ⟨[], [], "ls", 1⟩ "ls").1 rfl).1 (by decide)

theorem classifyCmd_kubectl (b : Bool) (st : SessionState) (cmd : String)
    (hk : testKubectl cmd = true) :
    classifyCmd b st cmd =
      (if b then .ask kubectlAskMsg else .deny kubectlDenyMsg, st) := by
  unfold classifyCmd
  rw [if_pos hk]

/-- C1 counterexample: inside a repo, with bootstrap mode on and session
state `lastCommand = "kubectl get pods"`, `loopCount = 1` (the state left
by two prior occurrences of the command), a further `kubectl get pods`
matches the kubectl pattern yet the emitted decision is the loop-detection
`deny`, not the claimed `ask` — and off bootstrap the deny reason is the
loop message, which names neither the alternative tools nor the escape
hatch. -/
theorem C1_counterexample :
    testKubectl "kubectl get pods" = true ∧
    classify true ⟨[], [], "kubectl get pods", 1⟩ "kubectl get pods" =
      (.deny (loopMsg 2), ⟨[], [], "kubectl get pods", 0⟩) := by
  exact ⟨rfl, rfl⟩

/-- C1 as amended: for every kubectl-pattern command whose loop check does
not fire (the command differs from the stored `lastCommand`, or the stored
loop counter is 0), the decision is `deny` off bootstrap — with the reason
naming omnictl/talosctl/ArgoCD and the `TALOS_GITOPS_BOOTSTRAP` escape
hatch — and `ask` on bootstrap. -/
theorem C1_kubectl_gate_amended (s : SessionState) (cmd : String)
    (hk : testKubectl cmd = true)
    (hnl : cmd ≠ s.lastCommand ∨ s.loopCount = 0) :
    (classify false s cmd).1 = .deny kubectlDenyMsg ∧
    (classify true s cmd).1 = .ask kubectlAskMsg := by
  have step : ∀ b : Bool, ∃ st, classify b s cmd = classifyCmd b st cmd := by
    intro b
    unfold classify
    by_cases he : cmd = s.lastCommand
    · have h0 : s.loopCount = 0 := by
        rcases hnl with h | h
        · exact absurd he h
        · exact h
      rw [if_pos he, if_neg (by omega)]
      exact ⟨_, rfl⟩
    · rw [if_neg he]
      exact ⟨_, rfl⟩
  obtain ⟨st1, e1⟩ := step false
  obtain ⟨st2, e2⟩ := step true
  rw [e1, e2, classifyCmd_kubectl false st1 cmd hk,
    classifyCmd_kubectl true st2 cmd hk]
  exact ⟨rfl, rfl⟩

/-- Witness for the amended C1 at a concrete command and fresh state. -/
theorem C1_kubectl_gate_amended_witness :
    (classify false defaultSessionState "kubectl get pods").1 =
      .deny kubectlDenyMsg ∧
    (classify true defaultSessionState "kubectl get pods").1 =
      .ask kubectlAskMsg := by
  exact C1_kubectl_gate_amended defaultSessionState "kubectl get pods" rfl
    (Or.inr rfl)

/-! ## C5: render, diff, then manual sync

The commands are `"helm template " ++ app`, `"argocd app diff " ++ app`
and `"argocd app sync " ++ app` for an app name `app` without whitespace.
Matching inside the concrete prefixes reduces definitionally; matches
starting inside the whitespace-free tail are ruled out by
`searchWB_eq_false`. -/

theorem testKubectl_render (app : String)
    (h : ∀ c ∈ app.data, isSpc c = false) :
    testKubectl ("helm template " ++ app) = false := by
  cases app with
  | mk l =>
    have step : testKubectl ("helm template " ++ String.mk l) =
        searchWB mKubectl false l := rfl
    rw [step]
    exact searchWB_eq_false (fun _ hx => mKubectl_space hx) false l h

theorem testHelmInstall_render (app : String)
    (h : ∀ c ∈ app.data, isSpc c = false) :
    testHelmInstall ("helm template " ++ app) = false := by
  cases app with
  | mk l =>
    have step : testHelmInstall ("helm template " ++ String.mk l) =
        searchWB mHelmInstall false l := rfl
    rw [step]
    exact searchWB_eq_false (fun _ hx => mHelmInstall_space hx) false l h

theorem testHelmTemplate_render (app : String) :
    testHelmTemplate ("helm template " ++ app) = true := by
  cases app with
  | mk l => rfl

theorem extractHelmTemplate_render (app : String) (hne : app.data ≠ [])
    (h : ∀ c ∈ app.data, isSpc c = false) :
    extractHelmTemplate ("helm template " ++ app) = some app := by
  cases app with
  | mk l =>
    obtain ⟨k, hk⟩ : ∃ k, extractHelmTemplate ("helm template " ++ String.mk l) =
        (match takeTok (l.dropWhile isSpc) with
         | some t => some t
         | none => k) := ⟨_, rfl⟩
    rw [hk, dropWhile_nospc l h, takeTok_nospc l hne h]

theorem testKubectl_diff (app : String)
    (h : ∀ c ∈ app.data, isSpc c = false) :
    testKubectl ("argocd app diff " ++ app) = false := by
  cases app with
  | mk l =>
    have step : testKubectl ("argocd app diff " ++ String.mk l) =
        searchWB mKubectl false l := rfl
    rw [step]
    exact searchWB_eq_false (fun _ hx => mKubectl_space hx) false l h

theorem testHelmInstall_diff (app : String)
    (h : ∀ c ∈ app.data, isSpc c = false) :
    testHelmInstall ("argocd app diff " ++ app) = false := by
  cases app with
  | mk l =>
    have step : testHelmInstall ("argocd app diff " ++ String.mk l) =
        searchWB mHelmInstall false l := rfl
    rw [step]
    exact searchWB_eq_false (fun _ hx => mHelmInstall_space hx) false l h

theorem testHelmTemplate_diff (app : String)
    (h : ∀ c ∈ app.data, isSpc c = false) :
    testHelmTemplate ("argocd app diff " ++ app) = false := by
  cases app with
  | mk l =>
    have step : testHelmTemplate ("argocd app diff " ++ String.mk l) =
        searchWB mHelmTemplate false l := rfl
    rw [step]
    exact searchWB_eq_false (fun _ hx => mHelmTemplate_space hx) false l h

theorem testArgoDiff_diff (app : String) :
    testArgoDiff ("argocd app diff " ++ app) = true := by
  cases app with
  | mk l => rfl

theorem extractArgoDiff_diff (app : String) (hne : app.data ≠ [])
    (h : ∀ c ∈ app.data, isSpc c = false) :
    extractArgoDiff ("argocd app diff " ++ app) = some app := by
  cases app with
  | mk l =>
    obtain ⟨k, hk⟩ : ∃ k, extractArgoDiff ("argocd app diff " ++ String.mk l) =
        (match takeTok (l.dropWhile isSpc) with
         | some t => some t
         | none => k) := ⟨_, rfl⟩
    rw [hk, dropWhile_nospc l h, takeTok_nospc l hne h]

theorem testKubectl_sync (app : String)
    (h : ∀ c ∈ app.data, isSpc c = false) :
    testKubectl ("argocd app sync " ++ app) = false := by
  cases app with
  | mk l =>
    have step : testKubectl ("argocd app sync " ++ String.mk l) =
        searchWB mKubectl false l := rfl
    rw [step]
    exact searchWB_eq_false (fun _ hx => mKubectl_space hx) false l h

theorem testHelmInstall_sync (app : String)
    (h : ∀ c ∈ app.data, isSpc c = false) :
    testHelmInstall ("argocd app sync " ++ app) = false := by
  cases app with
  | mk l =>
    have step : testHelmInstall ("argocd app sync " ++ String.mk l) =
        searchWB mHelmInstall false l := rfl
    rw [step]
    exact searchWB_eq_false (fun _ hx => mHelmInstall_space hx) false l h

theorem testHelmTemplate_sync (app : String)
    (h : ∀ c ∈ app.data, isSpc c = false) :
    testHelmTemplate ("argocd app sync " ++ app) = false := by
  cases app with
  | mk l =>
    have step : testHelmTemplate ("argocd app sync " ++ String.mk l) =
        searchWB mHelmTemplate false l := rfl
    rw [step]
    exact searchWB_eq_false (fun _ hx => mHelmTemplate_space hx) false l h

theorem testArgoDiff_sync (app : String)
    (h : ∀ c ∈ app.data, isSpc c = false) :
    testArgoDiff ("argocd app sync " ++ app) = false := by
  cases app with
  | mk l =>
    have step : testArgoDiff ("argocd app sync " ++ String.mk l) =
        searchWB mArgoDiff false l := rfl
    rw [step]
    exact searchWB_eq_false (fun _ hx => mArgoDiff_space hx) false l h

theorem testArgoSync_sync (app : String) :
    testArgoSync ("argocd app sync " ++ app) = true := by
  cases app with
  | mk l => rfl

theorem extractArgoSync_sync (app : String) (hne : app.data ≠ [])
    (h : ∀ c ∈ app.data, isSpc c = false) :
    extractArgoSync ("argocd app sync " ++ app) = some app := by
  cases app with
  | mk l =>
    obtain ⟨k, hk⟩ : ∃ k, extractArgoSync ("argocd app sync " ++ String.mk l) =
        (match takeTok (l.dropWhile isSpc) with
         | some t => some t
         | none => k) := ⟨_, rfl⟩
    rw [hk, dropWhile_nospc l h, takeTok_nospc l hne h]

theorem render_ne_diff (app : String) :
    ("helm template " ++ app) ≠ ("argocd app diff " ++ app) := by
  cases app with
  | mk l =>
    intro hx
    have h3 : some 'h' = some 'a' :=
      congrArg (fun s : String => s.data.head?) hx
    exact absurd h3 (by decide)

theorem diff_ne_sync (app : String) :
    ("argocd app diff " ++ app) ≠ ("argocd app sync " ++ app) := by
  cases app with
  | mk l =>
    intro hx
    have h3 : some 'd' = some 's' :=
      congrArg (fun s : String => (s.data.drop 11).head?) hx
    exact absurd h3 (by decide)

theorem classifyCmd_template (b : Bool) (st : SessionState) (app : String)
    (hne : app.data ≠ []) (h : ∀ c ∈ app.data, isSpc c = false) :
    classifyCmd b st ("helm template " ++ app) =
      (.allow, { st with validatedApps := st.validatedApps ++ [app] }) := by
  unfold classifyCmd
  rw [testKubectl_render app h, testHelmInstall_render app h,
    testHelmTemplate_render app, extractHelmTemplate_render app hne h]
  simp

theorem classifyCmd_diff (b : Bool) (st : SessionState) (app : String)
    (hne : app.data ≠ []) (h : ∀ c ∈ app.data, isSpc c = false) :
    classifyCmd b st ("argocd app diff " ++ app) =
      (.allow, { st with diffedApps := st.diffedApps ++ [app] }) := by
  unfold classifyCmd
  rw [testKubectl_diff app h, testHelmInstall_diff app h,
    testHelmTemplate_diff app h, testArgoDiff_diff app,
    extractArgoDiff_diff app hne h]
  simp

theorem classifyCmd_sync (b : Bool) (st : SessionState) (app : String)
    (h : ∀ c ∈ app.data, isSpc c = false) :
    ∃ reason, classifyCmd b st ("argocd app sync " ++ app) =
      (.ask reason, st) := by
  unfold classifyCmd
  rw [testKubectl_sync app h, testHelmInstall_sync app h,
    testHelmTemplate_sync app h, testArgoDiff_sync app h, testArgoSync_sync app]
  by_cases hc : st.diffedApps.contains
      ((extractArgoSync ("argocd app sync " ++ app)).getD "unknown") = true
  · rw [if_pos rfl, if_pos hc]
    exact ⟨_, rfl⟩
  · rw [if_pos rfl, if_neg hc]
    exact ⟨_, rfl⟩

theorem classify_step (b : Bool) (s : SessionState) (cmd : String)
    (h : s.loopCount = 0 ∨ s.lastCommand ≠ cmd) :
    ∃ st, classify b s cmd = classifyCmd b st cmd ∧ st.lastCommand = cmd ∧
      st.validatedApps = s.validatedApps ∧ st.diffedApps = s.diffedApps := by
  unfold classify
  by_cases he : cmd = s.lastCommand
  · have h0 : s.loopCount = 0 := by
      rcases h with h | h
      · exact h
      · exact absurd he.symm h
    rw [if_pos he, if_neg (by omega)]
    exact ⟨_, rfl, he.symm, rfl, rfl⟩
  · rw [if_neg he]
    exact ⟨_, rfl, rfl, rfl, rfl⟩

/-- C5: after a render (`helm template <app>`) and then a diff
(`argocd app diff <app>`) for the same whitespace-free app name, the saved
session state's `diffedApps` contains the app, and a subsequent
`argocd app sync <app>` still yields `ask` — a prior diff never upgrades
manual sync to an unconditional allow.  (The hypothesis on the starting
state rules out the loop guard pre-empting the first command.) -/
theorem C5_sync_after_diff (s : SessionState) (app : String) (b1 b2 b3 : Bool)
    (hne : app.data ≠ [])
    (hsp : ∀ c ∈ app.data, isSpc c = false)
    (hloop : s.loopCount = 0 ∨ s.lastCommand ≠ "helm template " ++ app) :
    app ∈ (classify b2 (classify b1 s ("helm template " ++ app)).2
        ("argocd app diff " ++ app)).2.diffedApps ∧
    ∃ reason,
      (classify b3 (classify b2 (classify b1 s ("helm template " ++ app)).2
          ("argocd app diff " ++ app)).2 ("argocd app sync " ++ app)).1 =
        .ask reason := by
  obtain ⟨t1, e1, hl1, hv1, hd1⟩ := classify_step b1 s _ hloop
  rw [e1, classifyCmd_template b1 t1 app hne hsp]
  have hloop2 : ({ t1 with validatedApps := t1.validatedApps ++ [app] }
      : SessionState).loopCount = 0 ∨
      ({ t1 with validatedApps := t1.validatedApps ++ [app] }
      : SessionState).lastCommand ≠ "argocd app diff " ++ app := by
    right
    show t1.lastCommand ≠ _
    rw [hl1]
    exact render_ne_diff app
  obtain ⟨t2, e2, hl2, hv2, hd2⟩ := classify_step b2 _ _ hloop2
  rw [e2, classifyCmd_diff b2 t2 app hne hsp]
  have hloop3 : ({ t2 with diffedApps := t2.diffedApps ++ [app] }
      : SessionState).loopCount = 0 ∨
      ({ t2 with diffedApps := t2.diffedApps ++ [app] }
      : SessionState).lastCommand ≠ "argocd app sync " ++ app := by
    right
    show t2.lastCommand ≠ _
    rw [hl2]
    exact diff_ne_sync app
  obtain ⟨t3, e3, hl3, hv3, hd3⟩ := classify_step b3 _ _ hloop3
  rw [e3]
  obtain ⟨reason, hr⟩ := classifyCmd_sync b3 t3 app hsp
  constructor
  · exact List.mem_append_right _ (List.mem_singleton.mpr rfl)
  · exact ⟨reason, by rw [hr]⟩

/-- Witness for C5 at app name `redis` from a fresh session. -/
theorem C5_sync_after_diff_witness :
    "redis" ∈ (classify false (classify false defaultSessionState
        ("helm template " ++ "redis")).2
        ("argocd app diff " ++ "redis")).2.diffedApps ∧
    ∃ reason,
      (classify false (classify false (classify false defaultSessionState
          ("helm template " ++ "redis")).2
          ("argocd app diff " ++ "redis")).2
          ("argocd app sync " ++ "redis")).1 = .ask reason := by
  exact C5_sync_after_diff defaultSessionState "redis" false false false
    (by decide) (by decide) (Or.inl rfl)

end TalosOps
